import Mathlib

/-!
Verification of the HTTP/1.1 engine specification against the repository's
source. Each section shallow-embeds the Rust code it is about; theorems at
the end of the file settle the spec's claims. Bytes are modelled as `Nat`
(ASCII codes), byte buffers as `List Nat`, and machine `u64` counters as
`Nat` (none of the verified paths can overflow 64 bits on the inputs the
theorems quantify over, and the source performs no wrapping arithmetic on
them).
-/

/-- A transfer coding as stored in a `TransferEncoding` header
(`src/src/header/shared/encoding.rs`). Only the constructors the claims
need are carried; `other` stands for any non-chunked coding. -/
inductive Encoding where
  | chunked
  | other (tag : Nat)
deriving DecidableEq, Repr

/-- The request method (`src/src/method.rs` via `method::Method`);
`extension` stands for any extension method token. -/
inductive Method where
  | get
  | head
  | post
  | put
  | delete
  | options
  | trace
  | connect
  | patch
  | extension (tag : Nat)
deriving DecidableEq, Repr

/-- The headers of an incoming request, restricted to the two typed headers
`Request::new` consults (`src/src/server/request.rs`): `headers.get::<ContentLength>()`
and `headers.has::<TransferEncoding>()`. `contentLength = some n` models a
parsed `Content-Length: n`; `transferEncoding = some codings` models a
parsed `Transfer-Encoding` header with the given codings list. -/
structure RequestHeaders where
  contentLength : Option Nat
  transferEncoding : Option (List Encoding)
deriving DecidableEq, Repr

/-- The four body readers of `HttpReader` (`src/src/http.rs`, lines 31-55),
with the underlying stream abstracted away: `sized` carries the remaining
byte count, `chunked` the optional remaining count of the current chunk. -/
inductive ReaderKind where
  | sized (remaining : Nat)
  | chunked (remaining : Option Nat)
  | eof
  | empty
deriving DecidableEq, Repr

/-- The body-framing decision of `Request::new`
(`src/src/server/request.rs`, lines 42-54):

  let body = if method == Get || method == Head { EmptyReader(stream) }
    else if headers.has::<ContentLength>() {
      match headers.get::<ContentLength>() {
        Some(&ContentLength(len)) => SizedReader(stream, len),
        None => unreachable!() } }
    else if headers.has::<TransferEncoding>() { ChunkedReader(stream, None) }
    else { EmptyReader(stream) };

The `unreachable!()` arm is represented by matching directly on the
`contentLength` field, which `has` and `get` both consult. -/
def requestBodyReader (method : Method) (headers : RequestHeaders) : ReaderKind :=
  if method = Method.get ∨ method = Method.head then
    ReaderKind.empty
  else
    match headers.contentLength with
    | some len => ReaderKind.sized len
    | none =>
      if headers.transferEncoding.isSome then
        ReaderKind.chunked none
      else
        ReaderKind.empty

/-- The error kinds of `std::io` that the codec produces
(`io::standard_error(...)` in `src/src/http.rs`). -/
inductive IoErr where
  | endOfFile
  | invalidInput
  | shortWrite (written : Nat)
deriving DecidableEq, Repr

/-- One call of the underlying `Reader::read` on a byte stream modelled as
the list of bytes the transport will produce: it fills the caller's buffer
of capacity `bufLen` as far as the stream allows. Returns the bytes read
and the rest of the stream. -/
def streamRead (bufLen : Nat) (stream : List Nat) : List Nat × List Nat :=
  (stream.take bufLen, stream.drop bufLen)

/-- The `SizedReader` arm of `HttpReader::read` (`src/src/http.rs`,
lines 73-86):

  if *remaining == 0 { Err(io::standard_error(io::EndOfFile)) }
  else {
    let num = try!(body.read(buf)) as u64;
    if num > *remaining { *remaining = 0; } else { *remaining -= num; }
    Ok(num as usize) }

Note the source reads into the caller's entire `buf`, without clamping it
to `remaining`. Returns the bytes handed to the caller, the new remaining
count, and the rest of the transport stream. -/
def sizedRead (remaining : Nat) (bufLen : Nat) (stream : List Nat) :
    Except IoErr (List Nat × Nat × List Nat) :=
  if remaining = 0 then
    Except.error IoErr.endOfFile
  else
    let num := (streamRead bufLen stream).1.length
    let remaining' := if num > remaining then 0 else remaining - num
    Except.ok ((streamRead bufLen stream).1, remaining', (streamRead bufLen stream).2)

/-- Repeatedly call `sizedRead` with a fresh buffer of capacity `bufLen`
until it reports an error (as `read_to_string` does over a `Request` body),
collecting every byte handed to the caller. `fuel` bounds the iteration. -/
def sizedReadAll : Nat → Nat → Nat → List Nat → List Nat
  | 0, _, _, _ => []
  | fuel + 1, remaining, bufLen, stream =>
    match sizedRead remaining bufLen stream with
    | Except.error _ => []
    | Except.ok (bytes, remaining', stream') =>
      bytes ++ sizedReadAll fuel remaining' bufLen stream'

/-- The `SizedWriter` arm of `HttpWriter::write` (`src/src/http.rs`,
lines 265-276):

  let len = msg.len() as u64;
  if len > *remaining {
    let len = *remaining; *remaining = 0;
    try!(w.write(&msg[..len as usize]));
    Err(io::standard_error(io::ShortWrite(len as usize)))
  } else { *remaining -= len; w.write(msg) }

Returns the bytes written to the underlying stream, the new remaining
count, and the error, if any. -/
def sizedWrite (remaining : Nat) (msg : List Nat) : List Nat × Nat × Option IoErr :=
  if msg.length > remaining then
    (msg.take remaining, 0, some (IoErr.shortWrite remaining))
  else
    (msg, remaining - msg.length, none)

/-- The `EmptyWriter` arm of `HttpWriter::write` (`src/src/http.rs`,
lines 277-288): zero octets ever reach the stream, and a non-empty message
is rejected with a `ShortWrite` error. -/
def emptyWrite (msg : List Nat) : List Nat × Option IoErr :=
  if msg.length = 0 then ([], none) else ([], some (IoErr.shortWrite msg.length))

/-- One step of the hex formatting `write!(w, "{:X}...", chunk_size)` used
by the `ChunkedWriter` arm: the ASCII code of an uppercase hex digit. -/
def hexDigitByte (d : Nat) : Nat :=
  if d < 10 then 48 + d else 65 + (d - 10)

/-- Uppercase hex digits (most significant first) of a positive number,
as Rust's `{:X}` formatter produces them. -/
def hexBytesPos (n : Nat) : List Nat :=
  if h : n = 0 then []
  else hexBytesPos (n / 16) ++ [hexDigitByte (n % 16)]
termination_by n
decreasing_by exact Nat.div_lt_self (Nat.pos_of_ne_zero h) (by norm_num)

/-- Rust's `{:X}` formatting of a `usize`: `0` prints as `"0"`. -/
def hexBytes (n : Nat) : List Nat :=
  if n = 0 then [48] else hexBytesPos n

/-- The CRLF line ending (`LINE_ENDING` in `src/src/http.rs`). -/
def crlf : List Nat := [13, 10]

/-- The `ChunkedWriter` arm of `HttpWriter::write` (`src/src/http.rs`,
lines 258-264):

  let chunk_size = msg.len();
  try!(write!(w, "{:X}{}", chunk_size, LINE_ENDING));
  try!(w.write(msg));
  w.write_str(LINE_ENDING)

Returns the bytes emitted on the wire for one `write(msg)` call. The
source has no special case for `msg.len() == 0`. -/
def chunkedWrite (msg : List Nat) : List Nat :=
  hexBytes msg.length ++ crlf ++ msg ++ crlf

/-- `HttpWriter::end` (`src/src/http.rs`, lines 246-250) performs a final
`write(&[])` and a flush; for the `ChunkedWriter` these are the bytes it
puts on the wire. -/
def chunkedEnd : List Nat :=
  chunkedWrite []

/-- The byte-machine of `read_chunk_size` (`src/src/http.rs`, lines
136-188), consuming the stream one byte at a time with the `in_ext` and
`in_chunk_size` flags of the source. The Rust `match` arms are translated
in order; the `todo!` in the extension arm is a logging macro (the tests
`test_chunk_size_with_extension` and `test_parse_chunked_request` drive
through it and succeed), so that arm just continues the loop. Returns the
parsed size and the unconsumed rest of the stream. -/
def readChunkSizeLoop : List Nat → Nat → Bool → Bool → Except IoErr (Nat × List Nat)
  | [], _, _, _ => Except.error IoErr.endOfFile
  | b :: rest, size, inExt, inChunkSize =>
    if 48 ≤ b ∧ b ≤ 57 ∧ inChunkSize then
      readChunkSizeLoop rest (size * 16 + (b - 48)) inExt inChunkSize
    else if 97 ≤ b ∧ b ≤ 102 ∧ inChunkSize then
      readChunkSizeLoop rest (size * 16 + (b + 10 - 97)) inExt inChunkSize
    else if 65 ≤ b ∧ b ≤ 70 ∧ inChunkSize then
      readChunkSizeLoop rest (size * 16 + (b + 10 - 65)) inExt inChunkSize
    else if b = 13 then
      match rest with
      | 10 :: rest' => Except.ok (size, rest')
      | _ :: _ => Except.error IoErr.invalidInput
      | [] => Except.error IoErr.endOfFile
    else if b = 59 ∧ ¬inExt then
      readChunkSizeLoop rest size true false
    else if (b = 9 ∨ b = 32) ∧ ¬inExt ∧ ¬inChunkSize then
      readChunkSizeLoop rest size inExt inChunkSize
    else if (b = 9 ∨ b = 32) ∧ inChunkSize then
      readChunkSizeLoop rest size inExt false
    else if inExt then
      readChunkSizeLoop rest size inExt inChunkSize
    else
      Except.error IoErr.invalidInput

/-- `read_chunk_size` starts with `size = 0`, `in_ext = false`,
`in_chunk_size = true`. -/
def readChunkSize (stream : List Nat) : Except IoErr (Nat × List Nat) :=
  readChunkSizeLoop stream 0 false true

/-- The headers of an outgoing server response, restricted to the typed
headers `Response::write_head` consults and mutates
(`src/src/server/response.rs`): `ContentLength`, `TransferEncoding` and
`Date`. -/
structure ResponseHeaders where
  contentLength : Option Nat
  transferEncoding : Option (List Encoding)
  date : Bool
deriving DecidableEq, Repr

/-- The framing verdict of `Response::write_head` (the private `Body` enum
of `src/src/server/response.rs`, lines 196-200). -/
inductive BodyType where
  | chunked
  | sized (len : Nat)
deriving DecidableEq, Repr

/-- `Response::write_head` (`src/src/server/response.rs`, lines 73-111),
restricted to its effect on the headers and its framing verdict (the
status line and header block it also serializes carry no framing
decision):

  if !self.headers.has::<header::Date>() { self.headers.set(header::Date(..)); }
  let mut body_type = Body::Chunked;
  if let Some(cl) = self.headers.get::<header::ContentLength>() {
    body_type = Body::Sized(**cl); };
  if body_type == Body::Chunked {
    let encodings = match self.headers.get_mut::<header::TransferEncoding>() {
      Some(&mut header::TransferEncoding(ref mut encodings)) => {
        encodings.push(header::Encoding::Chunked); false },
      None => true };
    if encodings {
      self.headers.set::<header::TransferEncoding>(
        header::TransferEncoding(vec![header::Encoding::Chunked])) } }

The response status and the request method play no part: `write_head`
takes neither into account (a `Response` does not even carry the request's
method). -/
def writeHead (headers : ResponseHeaders) : BodyType × ResponseHeaders :=
  let headers := if headers.date then headers else { headers with date := true }
  match headers.contentLength with
  | some len => (BodyType.sized len, headers)
  | none =>
    let te := match headers.transferEncoding with
      | some encodings => encodings ++ [Encoding.chunked]
      | none => [Encoding.chunked]
    (BodyType.chunked, { headers with transferEncoding := some te })

/-- What the dispatcher does with one chunk produced by the user body
stream, from `Dispatcher::poll_write` (`src/src/proto/h1/dispatch.rs`,
lines 309-334). -/
inductive WriteAction where
  | endBody
  | writeBodyAndEnd (chunk : List Nat)
  | discard
  | writeBody (chunk : List Nat)
deriving DecidableEq, Repr

/-- The chunk handling of `Dispatcher::poll_write`
(`src/src/proto/h1/dispatch.rs`, lines 315-330): `eos` is
`body.is_end_stream()` after the chunk was pulled.

  let eos = body.is_end_stream();
  if eos {
    if chunk.remaining() == 0 { self.conn.end_body(); }
    else { self.conn.write_body_and_end(chunk); } }
  else {
    if chunk.remaining() == 0 { continue; }
    self.conn.write_body(chunk); } -/
def dispatchWriteChunk (chunk : List Nat) (eos : Bool) : WriteAction :=
  if eos then
    if chunk.length = 0 then WriteAction.endBody else WriteAction.writeBodyAndEnd chunk
  else
    if chunk.length = 0 then WriteAction.discard else WriteAction.writeBody chunk

/-- The outcome of polling the inner `send_request` future once, from the
client's point of view (`src/src/client/mod.rs`): `Ok(Async::Ready)`,
`Ok(Async::NotReady)`, `Err(ClientError::Normal)`, or
`Err(ClientError::Canceled { connection_reused, req, reason })`. The
`Canceled` variant is produced only when `send_request_retryable` hands
the unsent request back, i.e. when the send failed before any request
bytes went on the wire. Responses and error reasons are abstracted to
`Nat` tags. -/
inductive SendOutcome where
  | ready (resp : Nat)
  | notReady
  | errNormal (reason : Nat)
  | errCanceled (connectionReused : Bool) (reason : Nat)
deriving DecidableEq, Repr

/-- What one call of `RetryableSendRequest::poll` produces, together with
the number of times the request was re-sent (`self.future =
self.client.send_request(..)`) inside that call. `exhausted` marks
running out of the supplied outcome list while the loop still wanted to
poll a fresh future. -/
inductive RetryOutcome where
  | ready (resp : Nat) (retries : Nat)
  | notReady (retries : Nat)
  | err (reason : Nat) (retries : Nat)
  | exhausted
deriving DecidableEq, Repr

/-- `RetryableSendRequest::poll` (`src/src/client/mod.rs`, lines 363-386),
with the successive inner futures abstracted to the list of outcomes their
first polls produce (each retry builds a fresh future via `send_request`,
whose outcome is the next list element):

  loop {
    match self.future.poll() {
      Ok(Async::Ready(resp)) => return Ok(Async::Ready(resp)),
      Ok(Async::NotReady) => return Ok(Async::NotReady),
      Err(ClientError::Normal(err)) => return Err(err),
      Err(ClientError::Canceled { connection_reused, mut req, reason }) => {
        if !self.client.retry_canceled_requests || !connection_reused {
          return Err(reason); }
        *req.uri_mut() = self.uri.clone();
        self.future = self.client.send_request(req, &self.domain); } } } -/
def retryableSendPoll (retryCanceledRequests : Bool) : List SendOutcome → RetryOutcome
  | [] => RetryOutcome.exhausted
  | outcome :: rest =>
    match outcome with
    | SendOutcome.ready resp => RetryOutcome.ready resp 0
    | SendOutcome.notReady => RetryOutcome.notReady 0
    | SendOutcome.errNormal reason => RetryOutcome.err reason 0
    | SendOutcome.errCanceled connectionReused reason =>
      if ¬retryCanceledRequests ∨ ¬connectionReused then
        RetryOutcome.err reason 0
      else
        match retryableSendPoll retryCanceledRequests rest with
        | RetryOutcome.ready r n => RetryOutcome.ready r (n + 1)
        | RetryOutcome.notReady n => RetryOutcome.notReady (n + 1)
        | RetryOutcome.err e n => RetryOutcome.err e (n + 1)
        | RetryOutcome.exhausted => RetryOutcome.exhausted

/-- An abstract HTTP/1 connection as the dispatcher loop sees it: `step`
is one `poll_read(); poll_write(); poll_flush()` round that completed
without suspending, and `wants` is `conn.wants_read_again()` on the
resulting state (`src/src/proto/h1/dispatch.rs`). -/
structure DispatchModel (σ : Type) where
  step : σ → σ
  wants : σ → Bool

/-- The bounded loop of `Dispatcher::poll_loop`
(`src/src/proto/h1/dispatch.rs`, lines 141-162) with `fuel` iterations
left of the `for _ in 0..16`. Returns the final state, the number of
read-write-flush rounds performed, and whether the loop fell off the end
and called `task::yield_now` (which wakes the task and returns
`Poll::Pending`). -/
def pollLoopGo (m : DispatchModel σ) : Nat → σ → σ × Nat × Bool
  | 0, s => (s, 0, true)
  | fuel + 1, s =>
    let s' := m.step s
    if m.wants s' = false then
      (s', 1, false)
    else
      let r := pollLoopGo m fuel s'
      (r.1, r.2.1 + 1, r.2.2)

/-- `Dispatcher::poll_loop`: at most 16 iterations, then a cooperative
yield. -/
def pollLoop (m : DispatchModel σ) (s : σ) : σ × Nat × Bool :=
  pollLoopGo m 16 s

/-- The second, unbounded `loop` of `Dispatcher::poll_inner`
(`src/src/proto/h1/dispatch.rs`, lines 103-119), reached when `poll_loop`
returned `Ready` instead of yielding; it repeats the same
read-write-flush round while `wants_read_again()` holds. `fuel` truncates
the unbounded loop: `none` means it was still running after `fuel`
rounds. Returns the rounds performed. -/
def pollInnerLoopGo (m : DispatchModel σ) : Nat → σ → Option (σ × Nat)
  | 0, _ => none
  | fuel + 1, s =>
    let s' := m.step s
    if m.wants s' = false then
      some (s', 1)
    else
      match pollInnerLoopGo m fuel s' with
      | some (t, c) => some (t, c + 1)
      | none => none

/-- One wake of the dispatcher (`Dispatcher::poll_inner`,
`src/src/proto/h1/dispatch.rs`, lines 99-133): first `poll_loop`; if it
yielded, the wake ends there; otherwise the unbounded loop runs. Returns
`some (totalRounds, yielded)`, or `none` when the unbounded loop outlived
`fuel`. -/
def pollInnerRounds (m : DispatchModel σ) (fuel : Nat) (s : σ) : Option (Nat × Bool) :=
  let r := pollLoop m s
  if r.2.2 then
    some (r.2.1, true)
  else
    match pollInnerLoopGo m fuel r.1 with
    | some (_, c) => some (r.2.1 + c, false)
    | none => none

/-- The protocol version half of a pool key (`Ver` in
`src/src/client/mod.rs` / `src/src/client/pool.rs`). -/
inductive Ver where
  | http1
  | http2
deriving DecidableEq, Repr

/-- A pool key: `type Key = (Arc<String>, Ver)` in `src/src/client/pool.rs`,
with the origin string abstracted to a `Nat` tag. -/
abbrev PoolKey := Nat × Ver

/-- A poolable value (`trait Poolable` in `src/src/client/pool.rs`): `id`
identifies the underlying connection, `closed` is `is_closed()`, and
`shared` says whether `reserve()` yields a `Reservation::Shared` (HTTP/2)
rather than `Reservation::Unique` (HTTP/1). -/
structure PoolValue where
  id : Nat
  closed : Bool
  shared : Bool
deriving DecidableEq, Repr

/-- `Reservation` (`src/src/client/pool.rs`, lines 36-45). -/
inductive Reservation where
  | shared (toInsert : PoolValue) (toReturn : PoolValue)
  | unique (v : PoolValue)
deriving DecidableEq, Repr

/-- `Poolable::reserve`: an HTTP/2 value returns two clones of the shared
handle (modelled as the value itself twice); an HTTP/1 value is unique. -/
def PoolValue.reserve (v : PoolValue) : Reservation :=
  if v.shared then Reservation.shared v v else Reservation.unique v

/-- `struct Idle<T> { idle_at: Instant, value: T }`
(`src/src/client/pool.rs`), with instants as `Nat` ticks. -/
structure IdleEntry where
  value : PoolValue
  idleAt : Nat
deriving DecidableEq, Repr

/-- A parked checkout waiter: a `oneshot::Sender<T>` in the `parked` map
(`src/src/client/pool.rs`); `canceled` is `tx.is_canceled()` (the checkout
future was dropped). -/
structure Waiter where
  wid : Nat
  canceled : Bool
deriving DecidableEq, Repr

/-- `PoolInner<T>` (`src/src/client/pool.rs`, lines 50-73). The two
`HashMap`s are modelled as total functions defaulting to `[]`; a key is
"present" exactly when its list is non-empty, which matches the source's
discipline of removing a key whenever its entry becomes empty. -/
structure PoolState where
  connecting : List PoolKey
  enabled : Bool
  idle : PoolKey → List IdleEntry
  parked : PoolKey → List Waiter
  timeout : Option Nat

/-- Pointwise map update. -/
def updMap (f : PoolKey → α) (k : PoolKey) (x : α) : PoolKey → α :=
  fun k' => if k' = k then x else f k'

/-- `Pool::new` (`src/src/client/pool.rs`, lines 76-88). -/
def Pool.new (enabled : Bool) (timeout : Option Nat) : PoolState :=
  { connecting := []
    enabled := enabled
    idle := fun _ => []
    parked := fun _ => []
    timeout := timeout }

/-- `Expiration::expires` (`src/src/client/pool.rs`, lines 575-580):
`instant.elapsed() > timeout` when a timeout is configured. -/
def expires (timeout : Option Nat) (now idleAt : Nat) : Bool :=
  match timeout with
  | some d => decide (now - idleAt > d)
  | none => false

/-- The waiter-serving `while let Some(tx) = parked.pop_front()` loop of
`PoolInner::put` (`src/src/client/pool.rs`, lines 266-294): canceled
senders are popped and dropped; a non-canceled sender receives the
reserved value (in this sequential model a non-canceled send succeeds); a
`Unique` reservation consumes the value and breaks the loop, a `Shared`
one keeps a clone and continues. Returns the deliveries made, the value
left over for the idle list, and the waiters still parked. -/
def serveParked (v : PoolValue) : List Waiter → List (Nat × PoolValue) × Option PoolValue × List Waiter
  | [] => ([], some v, [])
  | w :: ws =>
    if w.canceled then
      serveParked v ws
    else
      match v.reserve with
      | Reservation.shared _ toReturn =>
        let r := serveParked v ws
        ((w.wid, toReturn) :: r.1, r.2.1, r.2.2)
      | Reservation.unique u => ([(w.wid, u)], none, ws)

/-- `PoolInner::put` (`src/src/client/pool.rs`, lines 255-311):

  if !self.enabled { return; }
  if key.1 == Ver::Http2 && self.idle.contains_key(&key) { return; }
  ... serve parked waiters ...
  match value {
    Some(value) => self.idle.entry(key).or_insert(Vec::new())
                     .push(Idle { value, idle_at: Instant::now() }),
    None => ... }

Returns the new state and the deliveries handed to parked waiters. -/
def poolPut (now : Nat) (k : PoolKey) (v : PoolValue) (s : PoolState) :
    PoolState × List (Nat × PoolValue) :=
  if s.enabled = false then
    (s, [])
  else if k.2 = Ver.http2 ∧ s.idle k ≠ [] then
    (s, [])
  else
    let r := serveParked v (s.parked k)
    let s' := { s with parked := updMap s.parked k r.2.2 }
    match r.2.1 with
    | some v' =>
      ({ s' with idle := updMap s'.idle k (s'.idle k ++ [⟨v', now⟩]) }, r.1)
    | none => (s', r.1)

/-- `IdlePopper::pop` (`src/src/client/pool.rs`, lines 215-251), acting on
the reversed idle list (so that `Vec::pop`, which takes the most recently
pushed entry, becomes taking the head): closed or expired entries are
dropped; a `Shared` reservation reinserts one clone with a fresh
`idle_at` and checks the other out; a `Unique` one is checked out. -/
def popIdleRev (now : Nat) (timeout : Option Nat) : List IdleEntry → Option IdleEntry × List IdleEntry
  | [] => (none, [])
  | e :: rest =>
    if e.value.closed ∨ expires timeout now e.idleAt then
      popIdleRev now timeout rest
    else
      match e.value.reserve with
      | Reservation.shared toInsert toCheckout =>
        (some ⟨toCheckout, e.idleAt⟩, ⟨toInsert, now⟩ :: rest)
      | Reservation.unique u => (some ⟨u, e.idleAt⟩, rest)

/-- `Pool::take` (`src/src/client/pool.rs`, lines 126-159): pop a usable
idle entry for the key (newest first), removing the key when its list
becomes empty; the popped value is wrapped by `reuse` into a `Pooled`
with `is_reused = true`, modelled as just the value. -/
def poolTake (now : Nat) (k : PoolKey) (s : PoolState) : Option PoolValue × PoolState :=
  let r := popIdleRev now s.timeout ((s.idle k).reverse)
  ((r.1.map (fun e => e.value)), { s with idle := updMap s.idle k r.2.reverse })

/-- `Pool::connecting` (`src/src/client/pool.rs`, lines 103-124): for an
HTTP/2 key, insert it into the `connecting` set, refusing (`None`) when
it is already there; for HTTP/1 always hand out a handle that is not
tied to the set (`Weak::new()`). The `Bool` in the result records whether
the granted handle is tied to the set. -/
def poolConnecting (k : PoolKey) (s : PoolState) : Option Bool × PoolState :=
  if k.2 = Ver.http2 then
    if k ∈ s.connecting then
      (none, s)
    else
      (some true, { s with connecting := k :: s.connecting })
  else
    (some false, s)

/-- `PoolInner::connected` (`src/src/client/pool.rs`, lines 315-326),
called when a `Connecting` task completes or its handle is dropped:
remove the key from the `connecting` set and cancel its parked waiters. -/
def poolConnected (k : PoolKey) (s : PoolState) : PoolState :=
  { s with connecting := s.connecting.erase k, parked := updMap s.parked k [] }

/-- `Checkout::poll` (`src/src/client/pool.rs`, lines 522-535) for a
checkout that holds no parked receiver yet: try `take`; on `None`, park a
fresh waiter at the back of the key's queue (`Checkout::park` +
`Pool::park`). -/
def checkoutPoll (now wid : Nat) (k : PoolKey) (s : PoolState) : Option PoolValue × PoolState :=
  let r := poolTake now k s
  match r.1 with
  | some v => (some v, r.2)
  | none =>
    (none, { r.2 with parked := updMap r.2.parked k (r.2.parked k ++ [⟨wid, false⟩]) })

/-- `PoolInner::clean_parked` (`src/src/client/pool.rs`, lines 333-344). -/
def poolCleanParked (k : PoolKey) (s : PoolState) : PoolState :=
  { s with parked := updMap s.parked k ((s.parked k).filter (fun w => !w.canceled)) }

/-- `PoolInner::clear_expired` (`src/src/client/pool.rs`, lines 348-370). -/
def poolClearExpired (now : Nat) (s : PoolState) : PoolState :=
  match s.timeout with
  | none => s
  | some d =>
    { s with idle := fun k =>
        (s.idle k).filter (fun e => !e.value.closed && decide (now - e.idleAt < d)) }

/-- The external event of a checkout future being dropped: its oneshot
sender starts reporting `is_canceled()` (`src/src/client/pool.rs`,
`Checkout::drop` precedes a `clean_parked`, but between the drop and the
cleanup the sender sits in `parked` flagged canceled). -/
def cancelWaiter (k : PoolKey) (wid : Nat) (s : PoolState) : PoolState :=
  { s with parked := (updMap s.parked k
      ((s.parked k).map (fun w => if w.wid = wid then { w with canceled := true } else w))) }

/-- The reachable pool states: everything a `Pool` can get into through
the operations of `src/src/client/pool.rs` from `Pool::new`.
(`Pool::pooled` with a shared reservation is `put` followed by
`connected`, so it is covered by those two steps.) -/
inductive PoolReach : PoolState → Prop where
  | init (enabled : Bool) (timeout : Option Nat) : PoolReach (Pool.new enabled timeout)
  | put (now : Nat) (k : PoolKey) (v : PoolValue) {s : PoolState} :
      PoolReach s → PoolReach (poolPut now k v s).1
  | take (now : Nat) (k : PoolKey) {s : PoolState} :
      PoolReach s → PoolReach (poolTake now k s).2
  | connectingStep (k : PoolKey) {s : PoolState} :
      PoolReach s → PoolReach (poolConnecting k s).2
  | connected (k : PoolKey) {s : PoolState} :
      PoolReach s → PoolReach (poolConnected k s)
  | checkout (now wid : Nat) (k : PoolKey) {s : PoolState} :
      PoolReach s → PoolReach (checkoutPoll now wid k s).2
  | cleanParked (k : PoolKey) {s : PoolState} :
      PoolReach s → PoolReach (poolCleanParked k s)
  | clearExpired (now : Nat) {s : PoolState} :
      PoolReach s → PoolReach (poolClearExpired now s)
  | cancel (k : PoolKey) (wid : Nat) {s : PoolState} :
      PoolReach s → PoolReach (cancelWaiter k wid s)

/-- A byte the chunk-size machine accepts as an uppercase-or-decimal hex
digit; `{:X}` only ever emits these. -/
def IsHexDigitByte (b : Nat) : Prop :=
  (48 ≤ b ∧ b ≤ 57) ∨ (65 ≤ b ∧ b ≤ 70)

/-- The numeric value the chunk-size machine assigns to such a digit. -/
def hexVal (b : Nat) : Nat :=
  if b ≤ 57 then b - 48 else b + 10 - 65

theorem hexVal_hexDigitByte (d : Nat) (hd : d < 16) : hexVal (hexDigitByte d) = d := by
  unfold hexDigitByte
  split <;> (unfold hexVal; split <;> omega)

theorem hexDigitByte_isHex (d : Nat) (hd : d < 16) : IsHexDigitByte (hexDigitByte d) := by
  unfold hexDigitByte IsHexDigitByte
  split
  · left; omega
  · right; omega

theorem readChunkSizeLoop_digits (ds : List Nat) (hds : ∀ b ∈ ds, IsHexDigitByte b) :
    ∀ size rest, readChunkSizeLoop (ds ++ 13 :: 10 :: rest) size false true
      = Except.ok (ds.foldl (fun acc b => acc * 16 + hexVal b) size, rest) := by
  induction ds with
  | nil =>
    intro size rest
    simp only [List.nil_append, List.foldl_nil, readChunkSizeLoop]
    norm_num
  | cons b ds ih =>
    intro size rest
    have hb := hds b (List.mem_cons_self b ds)
    have hrec := ih (fun b' hb' => hds b' (List.mem_cons_of_mem b hb'))
    simp only [List.cons_append, readChunkSizeLoop]
    rcases hb with ⟨h1, h2⟩ | ⟨h1, h2⟩
    · rw [if_pos (by exact ⟨h1, h2, trivial⟩)]
      simp only [List.append_eq]
      rw [hrec (size * 16 + (b - 48)) rest]
      simp only [List.foldl_cons]
      congr 2
      unfold hexVal
      rw [if_pos h2]
    · rw [if_neg (by simp; omega), if_neg (by simp; omega), if_pos (by exact ⟨h1, h2, trivial⟩)]
      simp only [List.append_eq]
      rw [hrec (size * 16 + (b + 10 - 65)) rest]
      simp only [List.foldl_cons]
      congr 2
      unfold hexVal
      rw [if_neg (by omega)]

theorem hexBytesPos_spec (n : Nat) :
    (∀ b ∈ hexBytesPos n, IsHexDigitByte b)
    ∧ ∀ size, (hexBytesPos n).foldl (fun acc b => acc * 16 + hexVal b) size
        = size * 16 ^ (hexBytesPos n).length + n := by
  induction n using Nat.strong_induction_on with
  | _ n ih =>
    by_cases h : n = 0
    · subst h
      rw [hexBytesPos]
      simp
    · have hdiv : n / 16 < n := Nat.div_lt_self (Nat.pos_of_ne_zero h) (by norm_num)
      have ihd := ih (n / 16) hdiv
      rw [hexBytesPos]
      simp only [h, dif_neg, not_false_iff]
      constructor
      · intro b hb
        rcases List.mem_append.mp hb with hb | hb
        · exact ihd.1 b hb
        · rw [List.mem_singleton.mp hb]
          exact hexDigitByte_isHex _ (Nat.mod_lt _ (by norm_num))
      · intro size
        rw [List.foldl_append]
        simp only [List.foldl_cons, List.foldl_nil, List.length_append,
          List.length_singleton]
        rw [ihd.2 size, hexVal_hexDigitByte _ (Nat.mod_lt _ (by norm_num))]
        calc (size * 16 ^ (hexBytesPos (n / 16)).length + n / 16) * 16 + n % 16
            = size * (16 ^ (hexBytesPos (n / 16)).length * 16) + (16 * (n / 16) + n % 16) := by
              ring
          _ = size * 16 ^ ((hexBytesPos (n / 16)).length + 1) + n := by
              rw [← pow_succ, Nat.div_add_mod]

theorem hexBytes_spec (n : Nat) :
    (∀ b ∈ hexBytes n, IsHexDigitByte b)
    ∧ (hexBytes n).foldl (fun acc b => acc * 16 + hexVal b) 0 = n := by
  by_cases hn : n = 0
  · rw [hexBytes, if_pos hn]
    subst hn
    refine ⟨?_, by decide⟩
    intro b hb
    rw [List.mem_singleton.mp hb]
    left; omega
  · rw [hexBytes, if_neg hn]
    refine ⟨(hexBytesPos_spec n).1, ?_⟩
    rw [(hexBytesPos_spec n).2 0]
    ring

theorem updMap_same (f : PoolKey → α) (k : PoolKey) (x : α) : updMap f k x k = x := by
  simp [updMap]

theorem poolPut_connecting (now : Nat) (k : PoolKey) (v : PoolValue) (s : PoolState) :
    (poolPut now k v s).1.connecting = s.connecting := by
  unfold poolPut
  split
  · rfl
  split
  · rfl
  cases hsp : (serveParked v (s.parked k)).2.1 <;> simp only [hsp]

theorem poolTake_connecting (now : Nat) (k : PoolKey) (s : PoolState) :
    (poolTake now k s).2.connecting = s.connecting := rfl

theorem checkoutPoll_connecting (now wid : Nat) (k : PoolKey) (s : PoolState) :
    (checkoutPoll now wid k s).2.connecting = s.connecting := by
  unfold checkoutPoll
  cases h : (poolTake now k s).1 <;> simp only [h] <;> rfl

theorem poolClearExpired_connecting (now : Nat) (s : PoolState) :
    (poolClearExpired now s).connecting = s.connecting := by
  unfold poolClearExpired
  split <;> rfl

/-- The `connecting` set never holds duplicates: it is only ever grown by
`Pool::connecting`, which refuses keys already present, and shrunk by
`PoolInner::connected`. -/
theorem poolReach_connecting_nodup {s : PoolState} (h : PoolReach s) :
    s.connecting.Nodup := by
  induction h with
  | init enabled timeout => exact List.nodup_nil
  | put now k v _ ih => rw [poolPut_connecting]; exact ih
  | take now k _ ih => rw [poolTake_connecting]; exact ih
  | connectingStep k _ ih =>
    unfold poolConnecting
    split
    · split
      · exact ih
      · exact List.Nodup.cons (by assumption) ih
    · exact ih
  | connected k _ ih => exact List.Nodup.erase k ih
  | checkout now wid k _ ih => rw [checkoutPoll_connecting]; exact ih
  | cleanParked k _ ih => exact ih
  | clearExpired now _ ih => rw [poolClearExpired_connecting]; exact ih
  | cancel k wid _ ih => exact ih

/-- A fresh, unclosed entry at the head of the (reversed) idle list is what
`IdlePopper::pop` checks out, whatever its reservation kind. -/
theorem popIdleRev_cons_fresh (now2 : Nat) (t : Option Nat) (v : PoolValue) (idleAt : Nat)
    (rest : List IdleEntry) (hcl : v.closed = false) (hexp : expires t now2 idleAt = false) :
    (popIdleRev now2 t (⟨v, idleAt⟩ :: rest)).1 = some ⟨v, idleAt⟩ := by
  unfold popIdleRev
  rw [if_neg (by rw [hcl, hexp]; simp)]
  unfold PoolValue.reserve
  cases hsh : v.shared <;> simp [hsh]

/-- `PoolInner::put` with no waiters parked on the key: the value goes to
the back of the key's idle list. -/
theorem poolPut_no_waiters {s : PoolState} (now : Nat) (k : PoolKey) (v : PoolValue)
    (hen : s.enabled = true) (hpk : s.parked k = [])
    (h2 : ¬(k.2 = Ver.http2 ∧ s.idle k ≠ [])) :
    (poolPut now k v s).1
      = { s with parked := updMap s.parked k []
                 idle := updMap s.idle k (s.idle k ++ [⟨v, now⟩]) } := by
  unfold poolPut
  rw [if_neg (by rw [hen]; simp), if_neg h2, hpk]
  simp [serveParked]


/-- Decoding the chunk-size line the `ChunkedWriter` emits recovers the
chunk's length and leaves the data, the trailing CRLF and the rest of the
stream unconsumed. -/
theorem readChunkSize_chunkedWrite (msg rest : List Nat) :
    readChunkSize (chunkedWrite msg ++ rest)
      = Except.ok (msg.length, msg ++ crlf ++ rest) := by
  unfold readChunkSize chunkedWrite crlf
  have h := readChunkSizeLoop_digits (hexBytes msg.length) (hexBytes_spec msg.length).1
    0 (msg ++ [13, 10] ++ rest)
  rw [(hexBytes_spec msg.length).2] at h
  simpa using h

/-! ## Claim theorems -/

/-- Claim C1 (amended): the server's body-framing verdict for a parsed
request head checks the request method first — a GET or HEAD request
always gets an empty body reader regardless of headers — and then gives
Content-Length priority over Transfer-Encoding: for other methods,
`Content-Length: N` yields the sized reader for `N` even when a
`Transfer-Encoding` header is also present; otherwise the presence of any
`Transfer-Encoding` header yields the chunked reader; otherwise the body
is empty. A request body reader is never the close-delimited (EOF)
reader. -/
theorem request_body_framing (m : Method) (h : RequestHeaders) :
    ((m = Method.get ∨ m = Method.head) → requestBodyReader m h = ReaderKind.empty)
    ∧ (¬(m = Method.get ∨ m = Method.head) →
        ∀ len, h.contentLength = some len → requestBodyReader m h = ReaderKind.sized len)
    ∧ (¬(m = Method.get ∨ m = Method.head) → h.contentLength = none →
        h.transferEncoding.isSome → requestBodyReader m h = ReaderKind.chunked none)
    ∧ (¬(m = Method.get ∨ m = Method.head) → h.contentLength = none →
        h.transferEncoding = none → requestBodyReader m h = ReaderKind.empty)
    ∧ requestBodyReader m h ≠ ReaderKind.eof := by
  refine ⟨?_, ?_, ?_, ?_, ?_⟩
  · intro hm
    unfold requestBodyReader
    rw [if_pos hm]
  · intro hm len hcl
    unfold requestBodyReader
    rw [if_neg hm, hcl]
  · intro hm hcl hte
    unfold requestBodyReader
    rw [if_neg hm, hcl]
    exact if_pos hte
  · intro hm hcl hte
    unfold requestBodyReader
    rw [if_neg hm, hcl]
    rw [hte]
    rfl
  · unfold requestBodyReader
    split
    · simp
    · split
      · simp
      · split <;> simp

/-- Witness for the C1 theorem: a POST head with `Content-Length: 7` and
no Transfer-Encoding gets the sized reader for 7 bytes. -/
theorem request_body_framing_witness :
    requestBodyReader Method.post ⟨some 7, none⟩ = ReaderKind.sized 7 :=
  (request_body_framing Method.post ⟨some 7, none⟩).2.1 (by decide) 7 rfl

/-- Counterexample to claim C1 as stated: a POST head carrying both
`Transfer-Encoding: chunked` (as the final coding) and `Content-Length: 5`
is decoded with the sized reader for 5 bytes, not the chunked reader; and
a GET head with `Content-Length: 9` is decoded as an empty body, not
`KNOWN(9)`. -/
theorem request_body_framing_cex :
    requestBodyReader Method.post ⟨some 5, some [Encoding.chunked]⟩ = ReaderKind.sized 5
    ∧ requestBodyReader Method.post ⟨some 5, some [Encoding.chunked]⟩
        ≠ ReaderKind.chunked none
    ∧ requestBodyReader Method.get ⟨some 9, none⟩ = ReaderKind.empty := by
  decide

/-- Claim C2 (code bug): with `Content-Length: 2` and a transport that
produces 5 bytes into a 5-byte caller buffer, a single `SizedReader` read
hands all 5 bytes to the caller — more than its remaining count — and the
total handed to the user across reads is 5, not 2. The source reads into
the caller's whole buffer without clamping it to `remaining` (contrast
the `ChunkedReader` arm, which clamps with `min(rem, buf.len())`). -/
theorem sizedReader_overread :
    sizedRead 2 5 [7, 7, 7, 7, 7] = Except.ok ([7, 7, 7, 7, 7], 0, [])
    ∧ sizedReadAll 3 2 5 [7, 7, 7, 7, 7] = [7, 7, 7, 7, 7]
    ∧ ([7, 7, 7, 7, 7] : List Nat).length ≠ 2 :=
  ⟨rfl, rfl, by decide⟩

/-- Claim C3 (amended): the server response serializer never strips
`Content-Length` or `Transfer-Encoding` — the framing decision of
`write_head` depends only on the headers, never on the response status or
the request method (a `Response` does not even carry the method): with
`Content-Length: N` present the framing is identity-sized of `N` and both
header fields are left untouched, and with it absent the framing is
chunked and `chunked` is appended to (or inserted as) `Transfer-Encoding`.
Body octets are then emitted through the chosen writer exactly as for any
other response: nothing suppresses them. -/
theorem response_write_head_no_strip (h : ResponseHeaders) :
    (writeHead h).2.contentLength = h.contentLength
    ∧ (∀ len, h.contentLength = some len →
        (writeHead h).1 = BodyType.sized len
        ∧ (writeHead h).2.transferEncoding = h.transferEncoding)
    ∧ (h.contentLength = none →
        (writeHead h).1 = BodyType.chunked
        ∧ (writeHead h).2.transferEncoding
            = some (h.transferEncoding.getD [] ++ [Encoding.chunked]))
    ∧ (∀ n : Nat, ∀ msg : List Nat, msg.length ≤ n → (sizedWrite n msg).1 = msg) := by
  obtain ⟨cl, te, d⟩ := h
  refine ⟨?_, ?_, ?_, ?_⟩
  · cases d <;> cases cl <;> rfl
  · intro len hcl
    cases hcl
    cases d <;> exact ⟨rfl, rfl⟩
  · intro hcl
    cases hcl
    cases d <;> cases te <;> exact ⟨rfl, by simp [writeHead]⟩
  · intro n msg hle
    unfold sizedWrite
    rw [if_neg (by omega)]

/-- Witness for the C3 theorem: a response head with `Content-Length: 11`
keeps the header, frames the body as sized 11, and the sized writer emits
an 11-byte body in full. -/
theorem response_write_head_no_strip_witness :
    (writeHead ⟨some 11, none, false⟩).1 = BodyType.sized 11
    ∧ (writeHead ⟨some 11, none, false⟩).2.transferEncoding = none
    ∧ (sizedWrite 11 [102, 111, 111, 32, 98, 97, 114, 32, 98, 97, 122]).1
        = [102, 111, 111, 32, 98, 97, 114, 32, 98, 97, 122] :=
  ⟨((response_write_head_no_strip ⟨some 11, none, false⟩).2.1 11 rfl).1,
   ((response_write_head_no_strip ⟨some 11, none, false⟩).2.1 11 rfl).2,
   (response_write_head_no_strip ⟨some 11, none, false⟩).2.2.2 11
     [102, 111, 111, 32, 98, 97, 114, 32, 98, 97, 122] (by decide)⟩

/-- Counterexample to claim C3 as stated: for a response that the claim
says must have its framing headers stripped and its body suppressed (for
example a `204` or a reply to HEAD — `write_head` cannot distinguish, as
it consults neither status nor method), a user-set `Content-Length: 11`
survives in the head, the body is framed as sized 11, and the sized
writer puts the 11 body octets on the wire; with no `Content-Length`,
`Transfer-Encoding: chunked` is inserted rather than stripped. -/
theorem response_write_head_strip_cex :
    (writeHead ⟨some 11, none, true⟩).1 = BodyType.sized 11
    ∧ (writeHead ⟨some 11, none, true⟩).2.contentLength = some 11
    ∧ (writeHead ⟨none, none, true⟩).2.transferEncoding = some [Encoding.chunked]
    ∧ (sizedWrite 11 [102, 111, 111, 32, 98, 97, 114, 32, 98, 97, 122]).1
        = [102, 111, 111, 32, 98, 97, 114, 32, 98, 97, 122]
    ∧ [102, 111, 111, 32, 98, 97, 114, 32, 98, 97, 122] ≠ ([] : List Nat) := by
  decide

/-- Claim C4 (amended): when a response head is written, a present
`Content-Length` header wins: the framing is identity-sized with that
length even when the user explicitly set `Transfer-Encoding: chunked`,
and the `Content-Length` header is not removed; only when `Content-Length`
is absent is the body chunked, with `chunked` appended to the user's
`Transfer-Encoding` list (or the header inserted). The body is chunked
precisely when `Content-Length` is absent. -/
theorem response_framing_decision (h : ResponseHeaders) :
    (∀ len, h.contentLength = some len →
        (writeHead h).1 = BodyType.sized len
        ∧ (writeHead h).2.contentLength = some len)
    ∧ (h.contentLength = none → (writeHead h).1 = BodyType.chunked)
    ∧ ((writeHead h).1 = BodyType.chunked ↔ h.contentLength = none) := by
  obtain ⟨cl, te, d⟩ := h
  refine ⟨?_, ?_, ?_⟩
  · intro len hcl
    cases hcl
    cases d <;> exact ⟨rfl, rfl⟩
  · intro hcl
    cases hcl
    cases d <;> rfl
  · cases cl <;> cases d <;> simp [writeHead]

/-- Witness for the C4 theorem: with both a user-set
`Transfer-Encoding: chunked` and `Content-Length: 5` in the head, the
framing is sized 5 and the `Content-Length` header survives. -/
theorem response_framing_decision_witness :
    (writeHead ⟨some 5, some [Encoding.chunked], true⟩).1 = BodyType.sized 5
    ∧ (writeHead ⟨some 5, some [Encoding.chunked], true⟩).2.contentLength = some 5 :=
  (response_framing_decision ⟨some 5, some [Encoding.chunked], true⟩).1 5 rfl

/-- Counterexample to claim C4 as stated: the user explicitly set
`Transfer-Encoding: chunked`, yet with `Content-Length: 5` also present
the body is not chunked — it is identity-sized — and the `Content-Length`
header is not removed. -/
theorem response_framing_priority_cex :
    (writeHead ⟨some 5, some [Encoding.chunked], false⟩).1 ≠ BodyType.chunked
    ∧ (writeHead ⟨some 5, some [Encoding.chunked], false⟩).1 = BodyType.sized 5
    ∧ (writeHead ⟨some 5, some [Encoding.chunked], false⟩).2.contentLength = some 5 := by
  decide

/-- Claim C5 (amended): every chunk handed to the `ChunkedWriter` is
emitted as `hex-size CRLF data CRLF` — decoding the emitted frame with the
repository's own `read_chunk_size` recovers the chunk's length exactly and
leaves the data followed by CRLF on the stream — but the writer has no
special case for the empty chunk: writing an empty chunk emits
`0 CRLF CRLF`, which is byte-for-byte the terminating sequence, and is
precisely how `HttpWriter::end` produces the terminator (a final
`write(&[])`). Separately, the dispatcher of `proto/h1` discards empty
non-final chunks before they reach any writer, and forwards non-empty
ones. -/
theorem chunked_writer_behavior (msg rest : List Nat) (hne : msg ≠ []) :
    readChunkSize (chunkedWrite msg ++ rest) = Except.ok (msg.length, msg ++ crlf ++ rest)
    ∧ chunkedWrite [] = chunkedEnd
    ∧ chunkedEnd = [48, 13, 10, 13, 10]
    ∧ dispatchWriteChunk [] false = WriteAction.discard
    ∧ dispatchWriteChunk msg false = WriteAction.writeBody msg := by
  refine ⟨readChunkSize_chunkedWrite msg rest, rfl, rfl, rfl, ?_⟩
  unfold dispatchWriteChunk
  rw [if_neg (by simp), if_neg (by simp [hne])]

/-- Witness for the C5 theorem: the one-byte chunk `q` is framed as
`1 CRLF q CRLF`, its size line decodes back to 1, and the dispatcher
forwards it. -/
theorem chunked_writer_behavior_witness :
    readChunkSize (chunkedWrite [113] ++ [50, 13, 10])
      = Except.ok (1, [113, 13, 10, 50, 13, 10])
    ∧ dispatchWriteChunk [113] false = WriteAction.writeBody [113] :=
  ⟨(chunked_writer_behavior [113] [50, 13, 10] (by decide)).1,
   (chunked_writer_behavior [113] [50, 13, 10] (by decide)).2.2.2.2⟩

/-- Counterexample to claim C5 as stated: writing an empty chunk to the
`ChunkedWriter` mid-stream does not emit zero bytes — it emits four bytes,
and they are exactly the terminating sequence `0 CRLF CRLF`, so an empty
mid-stream chunk does terminate the body at the wire level, and the
terminator is not emitted only at end-of-stream. -/
theorem chunked_empty_write_cex :
    chunkedWrite [] ≠ []
    ∧ chunkedWrite [] = [48, 13, 10, 13, 10]
    ∧ chunkedWrite [] = chunkedEnd := by
  decide

/-- Claim C6 (amended): a send failure surfaced as
`ClientError::Canceled` on a connection that was not reused, or any
failure when `retry_canceled_requests` is disabled, or a
`ClientError::Normal` failure, is returned to the caller with no retry;
when the policy is enabled and the connection was reused the request is
re-sent — and if the retried attempt again fails the same way on a reused
connection, the loop retries again, so a single poll may retry more than
once (the count is not capped at one). -/
theorem retryable_send_policy (rest : List SendOutcome) (reason resp : Nat) :
    (∀ retry : Bool,
      retryableSendPoll retry (SendOutcome.errCanceled false reason :: rest)
        = RetryOutcome.err reason 0)
    ∧ retryableSendPoll false (SendOutcome.errCanceled true reason :: rest)
        = RetryOutcome.err reason 0
    ∧ (∀ retry : Bool,
        retryableSendPoll retry (SendOutcome.errNormal reason :: rest)
          = RetryOutcome.err reason 0)
    ∧ retryableSendPoll true [SendOutcome.errCanceled true reason, SendOutcome.ready resp]
        = RetryOutcome.ready resp 1 := by
  refine ⟨?_, rfl, fun retry => rfl, rfl⟩
  intro retry
  cases retry <;> rfl

/-- Counterexample to claim C6 as stated: with the retry policy enabled,
two consecutive reused-connection failures before any bytes were written,
followed by a success, make one poll of `RetryableSendRequest` re-send the
request twice — the claim's "exactly once" does not hold on the code,
whose loop has no retry counter. -/
theorem retry_more_than_once_cex :
    retryableSendPoll true
      [SendOutcome.errCanceled true 5, SendOutcome.errCanceled true 6, SendOutcome.ready 9]
      = RetryOutcome.ready 9 2
    ∧ (2 : Nat) ≠ 1 := by
  decide

theorem count_le_one_of_nodup {l : List PoolKey} (h : l.Nodup) (k : PoolKey) :
    l.count k ≤ 1 := by
  induction l with
  | nil => simp
  | cons a l ih =>
    rw [List.count_cons]
    rcases List.nodup_cons.mp h with ⟨ha, hl⟩
    by_cases hk : k = a
    · subst hk
      have hz : l.count k = 0 := List.count_eq_zero.mpr ha
      simp [hz]
    · have hk' : ¬a = k := fun e => hk e.symm
      simp [hk', ih hl]

/-- Claim C7: in every reachable pool state the `connecting` set holds at
most one entry per key; while an HTTP/2 key is in the set a second
`Pool::connecting` call for it is refused and leaves the pool unchanged;
`PoolInner::connected` (run when the attempt completes or the `Connecting`
handle drops) removes the key; and a checkout that finds no idle entry
for its key parks a waiter instead. -/
theorem pool_connecting_coalescing (s : PoolState) (hs : PoolReach s) :
    (∀ k : PoolKey, s.connecting.count k ≤ 1)
    ∧ (∀ k : PoolKey, k.2 = Ver.http2 → k ∈ s.connecting → poolConnecting k s = (none, s))
    ∧ (∀ k : PoolKey, k ∉ (poolConnected k s).connecting)
    ∧ (∀ now wid : Nat, ∀ k : PoolKey, s.idle k = [] →
        (checkoutPoll now wid k s).1 = none
        ∧ (checkoutPoll now wid k s).2.parked k = s.parked k ++ [⟨wid, false⟩]) := by
  have hnd := poolReach_connecting_nodup hs
  refine ⟨fun k => count_le_one_of_nodup hnd k, ?_, ?_, ?_⟩
  · intro k h2 hmem
    unfold poolConnecting
    rw [if_pos h2, if_pos hmem]
  · intro k
    exact hnd.not_mem_erase
  · intro now wid k hidle
    have ht : poolTake now k s = (none, { s with idle := updMap s.idle k [] }) := by
      unfold poolTake
      rw [hidle]
      simp [popIdleRev]
    unfold checkoutPoll
    rw [ht]
    exact ⟨rfl, updMap_same _ _ _⟩

/-- Witness for the C7 theorem at the freshly created pool. -/
theorem pool_connecting_coalescing_witness :
    (Pool.new true (some 90)).connecting.count ((0 : Nat), Ver.http2) ≤ 1
    ∧ ((0 : Nat), Ver.http2)
        ∉ (poolConnected ((0 : Nat), Ver.http2) (Pool.new true (some 90))).connecting :=
  ⟨(pool_connecting_coalescing (Pool.new true (some 90))
      (PoolReach.init true (some 90))).1 ((0 : Nat), Ver.http2),
   (pool_connecting_coalescing (Pool.new true (some 90))
      (PoolReach.init true (some 90))).2.2.1 ((0 : Nat), Ver.http2)⟩

/-- Claim C8 (amended): `put` of an unclosed value `v` under key `k` into
an enabled pool with no waiter parked on `k`, followed immediately by a
`take` of `k` before the idle timeout elapses, yields exactly `v` —
provided `k` is an HTTP/1 key or the pool holds no idle entry for `k`.
(For an HTTP/2 key that already has an idle entry, `put` discards `v` and
the next `take` yields the previously idled value instead.) -/
theorem pool_put_take_identity {s : PoolState} (now now2 : Nat) (k : PoolKey) (v : PoolValue)
    (hen : s.enabled = true) (hcl : v.closed = false) (hpk : s.parked k = [])
    (hid : k.2 = Ver.http1 ∨ s.idle k = [])
    (hexp : expires s.timeout now2 now = false) :
    (poolTake now2 k (poolPut now k v s).1).1 = some v := by
  have h2 : ¬(k.2 = Ver.http2 ∧ s.idle k ≠ []) := by
    rcases hid with h | h
    · rw [h]; simp
    · rw [h]; simp
  rw [poolPut_no_waiters now k v hen hpk h2]
  unfold poolTake
  simp only [updMap_same, List.reverse_append, List.reverse_cons, List.reverse_nil,
    List.nil_append, List.singleton_append]
  rw [popIdleRev_cons_fresh now2 s.timeout v now ((s.idle k).reverse) hcl hexp]
  rfl

/-- Witness for the C8 theorem: an HTTP/1 connection put at tick 0 into a
fresh enabled pool with a 90-tick timeout is returned by a take at
tick 50. -/
theorem pool_put_take_identity_witness :
    (poolTake 50 ((3 : Nat), Ver.http1)
        (poolPut 0 ((3 : Nat), Ver.http1) ⟨1, false, false⟩ (Pool.new true (some 90))).1).1
      = some ⟨1, false, false⟩ :=
  pool_put_take_identity 0 50 ((3 : Nat), Ver.http1) ⟨1, false, false⟩
    rfl rfl rfl (Or.inl rfl) (by decide)

/-- Counterexample to claim C8 as stated: the pool is enabled, no waiter
is parked, and the unclosed value `v` (id 1) is put under an HTTP/2 key
that already holds an idle entry (id 2); `put` silently drops `v`
(`Pool::put; existing idle HTTP/2 connection`), and the very next take
returns the old entry, not `v`. -/
theorem pool_put_take_identity_cex :
    ((poolPut 0 ((0 : Nat), Ver.http2) ⟨2, false, true⟩ (Pool.new true none)).1.enabled
        = true)
    ∧ ((poolPut 0 ((0 : Nat), Ver.http2) ⟨2, false, true⟩
          (Pool.new true none)).1.parked ((0 : Nat), Ver.http2) = [])
    ∧ (PoolValue.closed ⟨1, false, true⟩ = false)
    ∧ ((poolTake 0 ((0 : Nat), Ver.http2)
          (poolPut 0 ((0 : Nat), Ver.http2) ⟨1, false, true⟩
            (poolPut 0 ((0 : Nat), Ver.http2) ⟨2, false, true⟩
              (Pool.new true none)).1).1).1
        = some ⟨2, false, true⟩)
    ∧ some (PoolValue.mk 2 false true) ≠ some (PoolValue.mk 1 false true) := by
  refine ⟨rfl, rfl, rfl, rfl, by decide⟩

theorem pollLoopGo_count_le {σ : Type} (m : DispatchModel σ) :
    ∀ fuel : Nat, ∀ s : σ, (pollLoopGo m fuel s).2.1 ≤ fuel := by
  intro fuel
  induction fuel with
  | zero => intro s; exact Nat.le_refl 0
  | succ n ih =>
    intro s
    simp only [pollLoopGo]
    split
    · exact Nat.succ_le_succ (Nat.zero_le n)
    · exact Nat.succ_le_succ (ih (m.step s))

theorem pollLoopGo_yield_count {σ : Type} (m : DispatchModel σ) :
    ∀ fuel : Nat, ∀ s : σ,
      (pollLoopGo m fuel s).2.2 = true → (pollLoopGo m fuel s).2.1 = fuel := by
  intro fuel
  induction fuel with
  | zero => intro s _; rfl
  | succ n ih =>
    intro s hy
    simp only [pollLoopGo] at hy ⊢
    revert hy
    split
    · intro hy; cases hy
    · intro hy
      exact congrArg Nat.succ (ih (m.step s) hy)

/-- Claim C9 (amended): within `poll_loop` the fairness bound is honoured:
one call performs at most 16 read-write-flush rounds, and it cooperatively
yields (via `task::yield_now`) only after performing exactly 16 — so any
wake of the dispatcher that ends in the cooperative yield did exactly 16
rounds. However, when `poll_loop` finishes early because
`wants_read_again()` went false, `poll_inner` goes on to run a second,
unbounded loop of the same rounds, so a single wake of the dispatcher is
not bounded to 16 rounds overall. -/
theorem dispatcher_poll_loop_bound {σ : Type} (m : DispatchModel σ) (s : σ) :
    (pollLoop m s).2.1 ≤ 16
    ∧ ((pollLoop m s).2.2 = true → (pollLoop m s).2.1 = 16)
    ∧ (∀ fuel total : Nat,
        pollInnerRounds m fuel s = some (total, true) → total = 16) := by
  refine ⟨pollLoopGo_count_le m 16 s, pollLoopGo_yield_count m 16 s, ?_⟩
  intro fuel total h
  unfold pollInnerRounds at h
  by_cases hy : (pollLoop m s).2.2 = true
  · rw [if_pos hy] at h
    have h' := Option.some.inj h
    have htot : (pollLoop m s).2.1 = total := congrArg Prod.fst h'
    rw [← htot]
    exact pollLoopGo_yield_count m 16 s hy
  · rw [if_neg hy] at h
    revert h
    split
    · intro h
      have h' := Option.some.inj h
      exact absurd (congrArg Prod.snd h') (by simp)
    · intro h
      cases h

/-- Witness for the C9 theorem: a connection that always wants another
read makes `poll_loop` yield, having performed exactly 16 rounds. -/
theorem dispatcher_poll_loop_bound_witness :
    (pollLoop ⟨Nat.succ, fun _ => true⟩ (0 : Nat)).2.1 = 16 :=
  (dispatcher_poll_loop_bound ⟨Nat.succ, fun _ => true⟩ (0 : Nat)).2.1 (by decide)

/-- Counterexample to claim C9 as stated: a connection state (modelled as
a counter stepped by each round) for which `wants_read_again()` is false
after the first round but true for the following sixteen makes one wake of
the dispatcher perform 18 read-write-flush rounds with no cooperative
yield — more than the claimed 16-per-wake bound. -/
theorem dispatcher_sixteen_cex :
    pollInnerRounds ⟨Nat.succ, fun n => decide (2 ≤ n ∧ n ≤ 17)⟩ 100 (0 : Nat)
      = some (18, false)
    ∧ ¬(18 ≤ 16) := by
  exact ⟨rfl, by decide⟩

/-- Claim C10: for the identity-sized body writer with `R` bytes of
declared length remaining, a chunk of length `L ≤ R` is written in full to
the underlying stream leaving `R - L` remaining and no error, while a
chunk of length `L > R` has exactly its first `R` bytes written, zeroes
the remaining count, and fails with `ShortWrite`; the write errors exactly
when the chunk exceeds the remaining length. -/
theorem sized_writer_spec (remaining : Nat) (msg : List Nat) :
    (msg.length ≤ remaining →
      sizedWrite remaining msg = (msg, remaining - msg.length, none))
    ∧ (msg.length > remaining →
      sizedWrite remaining msg
        = (msg.take remaining, 0, some (IoErr.shortWrite remaining)))
    ∧ ((sizedWrite remaining msg).2.2 ≠ none ↔ msg.length > remaining) := by
  refine ⟨?_, ?_, ?_⟩
  · intro hle
    unfold sizedWrite
    rw [if_neg (by omega)]
  · intro hgt
    unfold sizedWrite
    rw [if_pos hgt]
  · unfold sizedWrite
    split
    · simpa using (by assumption : msg.length > remaining)
    · simpa using (by omega : ¬msg.length > remaining)

/-- Witness for the C10 theorem, mirroring the repository's
`test_write_sized`: capacity 8, `foo bar` (7 bytes) written in full with
1 remaining; then `baz` against remaining 1 writes only `b` and fails
with `ShortWrite(1)`. -/
theorem sized_writer_spec_witness :
    sizedWrite 8 [102, 111, 111, 32, 98, 97, 114]
      = ([102, 111, 111, 32, 98, 97, 114], 1, none)
    ∧ sizedWrite 1 [98, 97, 122] = ([98], 0, some (IoErr.shortWrite 1)) :=
  ⟨(sized_writer_spec 8 [102, 111, 111, 32, 98, 97, 114]).1 (by decide),
   (sized_writer_spec 1 [98, 97, 122]).2.1 (by decide)⟩
